import Mathlib

/-!
Shallow embedding of the signal-driven messaging core of the repository
(Django-signals_orm-0x04): the entity store, the post_save / pre_save /
post_delete signal handlers of messaging/signals.py, the model helpers of
messaging/models.py, the threaded-reply resolver of chats/views.py, and the
chats-app model variant (chats/models.py, chats/signals.py).

Machine conventions: primary keys (UUIDs in the source) are modelled as Nat;
auto_now_add timestamps are drawn from a store clock that advances once per
top-level write, so timestamps of successive rows are strictly increasing;
a database error raised by an individual write call is modelled by an
explicit fault oracle, and an IntegrityError from the unique_together
constraint on Notification by a conflict check against the current table.
-/

/-- Choices of Notification.notification_type (identical in both model
variants of the source). -/
inductive NotificationType where
  | new_message
  | message_edit
  | mention
deriving DecidableEq, Repr

namespace MessagingCore

/-- Row of messaging/models.py Message. -/
structure MessageRec where
  message_id : Nat
  sender : Nat
  receiver : Option Nat
  content : String
  timestamp : Nat
  conversation : Nat
  edited : Bool
  read : Bool
  parent_message : Option Nat
deriving DecidableEq, Repr

/-- Row of messaging/models.py Notification. -/
structure NotificationRec where
  user : Nat
  message : Nat
  notification_type : NotificationType
  is_read : Bool
  created_at : Nat
deriving DecidableEq, Repr

/-- Row of messaging/models.py MessageHistory. -/
structure MessageHistoryRec where
  message : Nat
  old_content : String
  edited_at : Nat
deriving DecidableEq, Repr

/-- Row of messaging/models.py Conversation; participants is the
many-to-many set, kept as a duplicate-free list. -/
structure ConversationRec where
  conversation_id : Nat
  participants : List Nat
  updated_at : Nat
deriving DecidableEq, Repr

/-- The entity store: the five tables plus the timestamp clock. -/
structure Store where
  users : List Nat
  conversations : List ConversationRec
  messages : List MessageRec
  notifications : List NotificationRec
  history : List MessageHistoryRec
  clock : Nat
deriving DecidableEq, Repr

def emptyStore : Store :=
  { users := [], conversations := [], messages := [], notifications := [],
    history := [], clock := 0 }

/-- Message.objects.get(pk=...), returning none for DoesNotExist. -/
def findMessage (s : Store) (pk : Nat) : Option MessageRec :=
  s.messages.find? (fun m => m.message_id == pk)

/-- Conversation lookup through the required foreign key. -/
def findConversation (s : Store) (cid : Nat) : Option ConversationRec :=
  s.conversations.find? (fun c => c.conversation_id == cid)

/-- QuerySet self.history: the MessageHistory rows of one message. -/
def message_history (s : Store) (mid : Nat) : List MessageHistoryRec :=
  s.history.filter (fun h => h.message == mid)

/-- Message.get_receivers of messaging/models.py: the direct receiver if
set, otherwise conversation.participants.exclude(user_id=sender.user_id).
A dangling conversation key cannot occur through the required FK; it is
mapped to the empty recipient set. -/
def get_receivers (s : Store) (m : MessageRec) : List Nat :=
  match m.receiver with
  | some r => [r]
  | none =>
    match findConversation s m.conversation with
    | some c => c.participants.filter (fun p => p != m.sender)
    | none => []

/-- Database-level check of the unique_together constraint
(user, message, notification_type) on messaging Notification. -/
def notifConflict (s : Store) (n : NotificationRec) : Bool :=
  s.notifications.any (fun o =>
    o.user == n.user && o.message == n.message &&
      o.notification_type == n.notification_type)

def pushNotif (s : Store) (n : NotificationRec) : Store :=
  { s with notifications := s.notifications ++ [n] }

/-- The per-recipient loop of create_message_notification: each pending
notification is persisted by its own Notification.objects.create call.
The index argument numbers the calls; fail i = true models the i-th call
raising a database error, and a unique_together violation raises
IntegrityError; either exception propagates at once, leaving the rows
created so far persisted and the rest never attempted. -/
def createEach (fail : Nat → Bool) : Nat → List NotificationRec → Store → Store × Option String
  | _, [], s => (s, none)
  | i, n :: rest, s =>
    if fail i then (s, some "DatabaseError")
    else if notifConflict s n then (s, some "IntegrityError")
    else createEach fail (i + 1) rest (pushNotif s n)

/-- Signal handler create_message_notification of messaging/signals.py
(post_save on Message): only for created instances, builds one pending
new_message notification per recipient of get_receivers and persists them
one create call at a time. -/
def create_message_notification (fail : Nat → Bool) (s : Store) (inst : MessageRec)
    (created : Bool) : Store × Option String :=
  if created then
    let recipients := get_receivers s inst
    let pending : List NotificationRec := recipients.map (fun r =>
      { user := r, message := inst.message_id,
        notification_type := NotificationType.new_message,
        is_read := false, created_at := s.clock })
    createEach fail 0 pending s
  else (s, none)

/-- Notification.objects.bulk_create(..., ignore_conflicts=True): each row
is inserted unless it violates the unique_together constraint, in which
case it is silently skipped. -/
def bulk_create_ignore_conflicts : List NotificationRec → Store → Store
  | [], s => s
  | n :: rest, s =>
    bulk_create_ignore_conflicts rest (if notifConflict s n then s else pushNotif s n)

/-- Signal handler log_message_edit of messaging/signals.py (pre_save on
Message): for an existing row whose stored content differs from the
incoming content, inserts one MessageHistory row holding the old content,
sets the in-flight instance's edited flag, and bulk-creates message_edit
notifications ignoring conflicts. A missing row (DoesNotExist) means a
new message: pass. Returns the store and the possibly-modified instance. -/
def log_message_edit (s : Store) (inst : MessageRec) : Store × MessageRec :=
  match findMessage s inst.message_id with
  | none => (s, inst)
  | some original_message =>
    if original_message.content != inst.content then
      let s1 := { s with history := s.history ++
        [{ message := original_message.message_id,
           old_content := original_message.content, edited_at := s.clock }] }
      let inst1 := { inst with edited := true }
      let recipients := get_receivers s1 inst1
      let pending : List NotificationRec := recipients.map (fun r =>
        { user := r, message := inst1.message_id,
          notification_type := NotificationType.message_edit,
          is_read := false, created_at := s1.clock })
      (bulk_create_ignore_conflicts pending s1, inst1)
    else (s, inst)

/-- Saving an existing Message instance: the pre_save handler runs, then
the row is updated in place. The post_save handlers are no-ops for
updates (they all test the created discriminator). -/
def updateMessage (s : Store) (inst : MessageRec) : Store :=
  let p := log_message_edit s inst
  { p.1 with
    messages := p.1.messages.map (fun m =>
      if m.message_id == p.2.message_id then p.2 else m),
    clock := p.1.clock + 1 }

/-- Signal handler update_conversation_timestamp (post_save on Message,
created only): conversation.save(update_fields) refreshes updated_at. -/
def update_conversation_timestamp (s : Store) (inst : MessageRec) : Store :=
  { s with conversations := s.conversations.map (fun c =>
      if c.conversation_id == inst.conversation then { c with updated_at := s.clock }
      else c) }

/-- Message.objects.create: the pre_save handler runs (DoesNotExist pass
for a fresh primary key), the row is inserted with its auto_now_add
timestamp, then the post_save handlers run in registration order:
create_message_notification first, then update_conversation_timestamp.
An exception escaping the notification loop propagates out of the signal
dispatch, so the later handler does not run. -/
def createMessageF (fail : Nat → Bool) (s : Store) (inst : MessageRec) :
    Store × Option String :=
  let p := log_message_edit s inst
  let row := { p.2 with timestamp := p.1.clock }
  let s2 := { p.1 with messages := p.1.messages ++ [row] }
  match create_message_notification fail s2 row true with
  | (s3, some e) => (s3, some e)
  | (s3, none) =>
    let s4 := update_conversation_timestamp s3 row
    ({ s4 with clock := s4.clock + 1 }, none)

/-- Message creation on the fault-free path. -/
def createMessage (s : Store) (inst : MessageRec) : Store :=
  (createMessageF (fun _ => false) s inst).1

/-- The row with the smaller edited_at; on a tie the earlier argument is
kept, matching a stable ascending sort. -/
def olderOf (a b : MessageHistoryRec) : MessageHistoryRec :=
  if b.edited_at < a.edited_at then b else a

/-- QuerySet order_by edited_at ascending followed by first(). -/
def oldestHistory : List MessageHistoryRec → Option MessageHistoryRec
  | [] => none
  | h :: t => some (t.foldl olderOf h)

/-- Message.get_original_content of messaging/models.py: the current
content when the edited flag is clear, otherwise the old_content of the
oldest history row, falling back to the current content when no history
row exists. -/
def get_original_content (s : Store) (m : MessageRec) : String :=
  if !m.edited then m.content
  else
    match oldestHistory (message_history s m.message_id) with
    | some h => h.old_content
    | none => m.content

/-- The per-user deletion_stats dictionary built by cleanup_user_data
(its custom_cleanup counters and errors list); this record is the content
of the audit entry written by store_deletion_audit_log. -/
structure DeletionStats where
  user_id : Nat
  message_histories_deleted : Nat
  empty_conversations_deleted : Nat
  additional_references_cleaned : Nat
  errors : List String
deriving DecidableEq, Repr

/-- QuerySet.delete on a set of Message rows: the rows matching the
predicate are removed, and the MessageHistory and Notification rows
referencing them go with them through their CASCADE foreign keys. -/
def deleteMessagesBy (s : Store) (p : MessageRec → Bool) : Store :=
  let doomedIds := (s.messages.filter p).map (fun m => m.message_id)
  { s with
    messages := s.messages.filter (fun m => !(p m)),
    history := s.history.filter (fun h => !(doomedIds.contains h.message)),
    notifications := s.notifications.filter (fun n => !(doomedIds.contains n.message)) }

/-- QuerySet.delete on a set of Conversation rows: the rows matching the
predicate are removed, and their Messages (with those messages' history
and notifications) go with them through the CASCADE foreign key. -/
def deleteConversationsBy (s : Store) (p : ConversationRec → Bool) : Store :=
  let doomed := (s.conversations.filter p).map (fun c => c.conversation_id)
  let s1 := { s with conversations := s.conversations.filter (fun c => !(p c)) }
  deleteMessagesBy s1 (fun m => doomed.contains m.conversation)

/-- Helper cleanup_orphaned_references of messaging/signals.py: deletes
any conversations with an empty participant set that remain, adding their
number to the additional-references counter; an exception inside it
(fault point 3) is caught by its own handler, appended to the stats
errors, and not re-raised. -/
def cleanup_orphaned_references (fail : Nat → Option String) (s : Store)
    (stats : DeletionStats) : Store × DeletionStats :=
  match fail 3 with
  | some e =>
    (s, { stats with errors := stats.errors ++
      ["Error in orphaned reference cleanup: " ++ e] })
  | none =>
    let cnt := (s.conversations.filter (fun c => c.participants.isEmpty)).length
    let s1 := deleteConversationsBy s (fun c => c.participants.isEmpty)
    (s1, { stats with additional_references_cleaned :=
      stats.additional_references_cleaned + cnt })

/-- Helper verify_cleanup_completion of messaging/signals.py: counts the
conversations with an empty participant set and records a warning in the
stats errors if any remain; an exception inside it (fault point 4) is
caught by its own handler and appended to the errors. -/
def verify_cleanup_completion (fail : Nat → Option String) (s : Store)
    (stats : DeletionStats) : DeletionStats :=
  match fail 4 with
  | some e =>
    { stats with errors := stats.errors ++
      ["Error during cleanup verification: " ++ e] }
  | none =>
    let empty_conversations :=
      (s.conversations.filter (fun c => c.participants.isEmpty)).length
    if 0 < empty_conversations then
      { stats with errors := stats.errors ++
        ["Found " ++ toString empty_conversations ++ " empty conversations"] }
    else stats

/-- The join MessageHistory.objects.filter(message__sender=instance):
a history row qualifies when some existing message row it references has
the deleted user as sender. -/
def historyJoinPred (st : Store) (u : Nat) (h : MessageHistoryRec) : Bool :=
  (st.messages.filter (fun m => m.sender == u)).any
    (fun m => m.message_id == h.message)

/-- The body of the outer try block of cleanup_user_data: delete the
deleted user's sent messages (fault point 0), delete the history rows
joined to the user's remaining sent messages (fault point 1), delete the
conversations whose participant set is empty (fault point 2), then run
cleanup_orphaned_references and verify_cleanup_completion, which catch
their own faults. The third component is the exception escaping the body,
if any; a fault fires before its step's mutation is applied. -/
def cleanupBody (fail : Nat → Option String) (s : Store) (u : Nat) :
    Store × DeletionStats × Option String :=
  let stats0 : DeletionStats :=
    { user_id := u, message_histories_deleted := 0,
      empty_conversations_deleted := 0, additional_references_cleaned := 0,
      errors := [] }
  match fail 0 with
  | some e => (s, stats0, some e)
  | none =>
    let s1 := deleteMessagesBy s (fun m => m.sender == u)
    match fail 1 with
    | some e => (s1, stats0, some e)
    | none =>
      let history_deleted_count := (s1.history.filter (historyJoinPred s1 u)).length
      let s2 := { s1 with history := s1.history.filter (fun h => !(historyJoinPred s1 u h)) }
      let stats1 := { stats0 with message_histories_deleted := history_deleted_count }
      match fail 2 with
      | some e => (s2, stats1, some e)
      | none =>
        let empty_count :=
          (s2.conversations.filter (fun c => c.participants.isEmpty)).length
        let s3 := deleteConversationsBy s2 (fun c => c.participants.isEmpty)
        let stats2 := { stats1 with empty_conversations_deleted := empty_count }
        let p := cleanup_orphaned_references fail s3 stats2
        let stats4 := verify_cleanup_completion fail p.1 p.2
        (p.1, stats4, none)

/-- Signal handler cleanup_user_data of messaging/signals.py (post_delete
on User) with its outer try/except: any exception escaping the body is
caught, formatted, appended to the stats errors, and the audit entry is
stored; nothing is ever re-raised to the caller. -/
def cleanup_user_data_f (fail : Nat → Option String) (s : Store) (u : Nat) :
    Store × DeletionStats :=
  match cleanupBody fail s u with
  | (s1, stats, none) => (s1, stats)
  | (s1, stats, some e) =>
    (s1, { stats with errors := stats.errors ++
      ["Error during user data cleanup: " ++ e] })

/-- Cleanup coordinator on the fault-free path. -/
def cleanup_user_data (s : Store) (u : Nat) : Store × DeletionStats :=
  cleanup_user_data_f (fun _ => none) s u

/-- User.delete: the ORM collector cascade-deletes the messages the user
sent or directly received (with their history and notifications), the
notifications addressed to the user, and the user's membership rows in
conversation participant sets; then the post_delete handler
cleanup_user_data runs on the resulting store. -/
def deleteUser (s : Store) (u : Nat) : Store :=
  let s1 := deleteMessagesBy s (fun m => m.sender == u || m.receiver == some u)
  let s2 := { s1 with
    notifications := s1.notifications.filter (fun n => !(n.user == u)),
    conversations := s1.conversations.map (fun c =>
      { c with participants := c.participants.filter (fun p => p != u) }),
    users := s1.users.filter (fun x => x != u) }
  (cleanup_user_data s2 u).1

/-- User.objects.create with a fresh primary key. -/
def addUserOp (s : Store) (u : Nat) : Store :=
  { s with users := s.users ++ [u], clock := s.clock + 1 }

/-- Conversation.objects.create followed by participants.set: the
participant set is duplicate-free (many-to-many semantics). -/
def addConversationOp (s : Store) (cid : Nat) (ps : List Nat) : Store :=
  { s with
    conversations := s.conversations ++
      [{ conversation_id := cid, participants := ps, updated_at := s.clock }],
    clock := s.clock + 1 }

/-- Number of Notification rows carrying one (user, message, type) tuple. -/
def countTuple (s : Store) (u m : Nat) (t : NotificationType) : Nat :=
  s.notifications.countP (fun n =>
    n.user == u && n.message == m && n.notification_type == t)

/-- States of the messaging-app store reachable through the operations of
the core: user and conversation creation, message creation (with its
post_save fan-out under any fault oracle), message update (with the
pre_save edit recorder and edit fan-out), and user deletion (with its
cascade and cleanup). -/
inductive Reachable : Store → Prop where
  | init : Reachable emptyStore
  | addUser (s : Store) (u : Nat) : Reachable s → u ∉ s.users →
      Reachable (addUserOp s u)
  | addConversation (s : Store) (cid : Nat) (ps : List Nat) : Reachable s →
      findConversation s cid = none → ps.Nodup →
      Reachable (addConversationOp s cid ps)
  | createMessage (s : Store) (inst : MessageRec) (fail : Nat → Bool) :
      Reachable s → findMessage s inst.message_id = none →
      Reachable (createMessageF fail s inst).1
  | updateMessage (s : Store) (inst : MessageRec) : Reachable s →
      Reachable (updateMessage s inst)
  | deleteUser (s : Store) (u : Nat) : Reachable s →
      Reachable (deleteUser s u)

/-- Notifications referencing one message in the store produced by
creating that message: with a fresh primary key these are exactly the
rows the create fan-out persisted. -/
def newNotifications (s : Store) (inst : MessageRec) : List NotificationRec :=
  (createMessage s inst).notifications.filter (fun n => n.message == inst.message_id)

/-- One body edit through the ORM: load the row, change its content, and
save it (pre_save handler included). A missing row is a no-op. -/
def applyEdit (s : Store) (mid : Nat) (body : String) : Store :=
  match findMessage s mid with
  | some m => updateMessage s { m with content := body }
  | none => s

/-- A sequence of body edits applied in order. -/
def applyEdits (s : Store) (mid : Nat) : List String → Store
  | [] => s
  | b :: bs => applyEdits (applyEdit s mid b) mid bs

end MessagingCore

namespace ChatsVariant

/-- Row of chats/models.py Message (fields message_body and sent_at). -/
structure ChatMessage where
  message_id : Nat
  sender : Nat
  receiver : Option Nat
  conversation : Nat
  message_body : String
  sent_at : Nat
  edited : Bool
  read : Bool
  parent_message : Option Nat
deriving DecidableEq, Repr

/-- Row of chats/models.py Notification: same fields as the messaging
variant but with no unique_together constraint. -/
structure ChatNotification where
  user : Nat
  message : Nat
  notification_type : NotificationType
  is_read : Bool
  created_at : Nat
deriving DecidableEq, Repr

/-- Row of chats/models.py MessageHistory. -/
structure ChatHistory where
  message : Nat
  old_content : String
  edited_at : Nat
deriving DecidableEq, Repr

/-- Row of chats/models.py Conversation. -/
structure ChatConversation where
  conversation_id : Nat
  participants : List Nat
deriving DecidableEq, Repr

/-- The chats-app store. -/
structure ChatStore where
  conversations : List ChatConversation
  messages : List ChatMessage
  notifications : List ChatNotification
  history : List ChatHistory
  clock : Nat
deriving DecidableEq, Repr

def findMessage (s : ChatStore) (pk : Nat) : Option ChatMessage :=
  s.messages.find? (fun m => m.message_id == pk)

def findConversation (s : ChatStore) (cid : Nat) : Option ChatConversation :=
  s.conversations.find? (fun c => c.conversation_id == cid)

/-- Signal handler log_message_edit of chats/signals.py (pre_save on
Message): on a body change it records one history row, sets the edited
flag, and persists one message_edit notification per non-sender
participant with a plain bulk_create — no conflict handling, and the
chats Notification model has no uniqueness constraint. -/
def log_message_edit (s : ChatStore) (inst : ChatMessage) : ChatStore × ChatMessage :=
  match findMessage s inst.message_id with
  | none => (s, inst)
  | some original_message =>
    if original_message.message_body != inst.message_body then
      let s1 := { s with history := s.history ++
        [{ message := original_message.message_id,
           old_content := original_message.message_body, edited_at := s.clock }] }
      let inst1 := { inst with edited := true }
      let participants :=
        match findConversation s1 inst.conversation with
        | some c => c.participants.filter (fun p => p != inst.sender)
        | none => []
      let pending : List ChatNotification := participants.map (fun p =>
        { user := p, message := inst1.message_id,
          notification_type := NotificationType.message_edit,
          is_read := false, created_at := s1.clock })
      ({ s1 with notifications := s1.notifications ++ pending }, inst1)
    else (s, inst)

/-- Saving an existing chats Message instance: pre_save handler, then the
in-place row update. -/
def updateMessage (s : ChatStore) (inst : ChatMessage) : ChatStore :=
  let p := log_message_edit s inst
  { p.1 with
    messages := p.1.messages.map (fun m =>
      if m.message_id == p.2.message_id then p.2 else m),
    clock := p.1.clock + 1 }

/-- Number of chats Notification rows carrying one (user, message, type)
tuple. -/
def countTupleChats (s : ChatStore) (u m : Nat) (t : NotificationType) : Nat :=
  s.notifications.countP (fun n =>
    n.user == u && n.message == m && n.notification_type == t)

/-- Node of the nested reply structure built by threaded_replies in
chats/views.py. -/
structure ReplyNode where
  message_id : Nat
  message_body : String
  sender : Nat
  sent_at : Nat
  depth : Nat
  replies : List ReplyNode

/-- QuerySet Message.objects.filter(parent_message=message) under the
model's default ordering by sent_at ascending (Message.Meta.ordering). -/
def orderedRepliesOf (msgs : List ChatMessage) (m : ChatMessage) : List ChatMessage :=
  List.insertionSort (fun a b => a.sent_at ≤ b.sent_at)
    (msgs.filter (fun r => r.parent_message == some m.message_id))

/-- Recursion worker for get_replies_recursive, driven by the fuel value
max_depth + 1 - depth: fuel 0 is exactly the source's guard
depth greater than max_depth, and each recursive call at depth + 1 has
fuel one less. -/
def getRepliesAux (msgs : List ChatMessage) : Nat → ChatMessage → Nat → List ReplyNode
  | 0, _, _ => []
  | remaining + 1, message, depth =>
    (orderedRepliesOf msgs message).map (fun reply =>
      { message_id := reply.message_id, message_body := reply.message_body,
        sender := reply.sender, sent_at := reply.sent_at, depth := depth + 1,
        replies := getRepliesAux msgs remaining reply (depth + 1) })

/-- Function get_replies_recursive of chats/views.py threaded_replies:
returns the empty list as soon as depth exceeds max_depth, otherwise one
node per direct reply (ordered by sent_at ascending) carrying depth + 1
and the recursively resolved sub-replies. -/
def get_replies_recursive (msgs : List ChatMessage) (message : ChatMessage)
    (depth : Nat) (max_depth : Nat) : List ReplyNode :=
  getRepliesAux msgs (max_depth + 1 - depth) message depth

instance : IsTotal ChatMessage (fun a b => a.sent_at ≤ b.sent_at) :=
  ⟨fun a b => Nat.le_total a.sent_at b.sent_at⟩

instance : IsTrans ChatMessage (fun a b => a.sent_at ≤ b.sent_at) :=
  ⟨fun _ _ _ hab hbc => Nat.le_trans hab hbc⟩

end ChatsVariant

section Examples

open MessagingCore ChatsVariant

/-- Base example store: users 1, 2, 3, 5; conversation 0 with
participants 1, 2, 3; conversation 1 with participants 1, 2. -/
def exStore : Store :=
  { users := [1, 2, 3, 5],
    conversations :=
      [{ conversation_id := 0, participants := [1, 2, 3], updated_at := 0 },
       { conversation_id := 1, participants := [1, 2], updated_at := 0 }],
    messages := [], notifications := [], history := [], clock := 5 }

/-- Direct message from 1 to 2. -/
def exDirect : MessageRec :=
  { message_id := 100, sender := 1, receiver := some 2, content := "hi",
    timestamp := 0, conversation := 0, edited := false, read := false,
    parent_message := none }

/-- Group message from 1 into conversation 0. -/
def exGroup : MessageRec :=
  { message_id := 101, sender := 1, receiver := none, content := "yo",
    timestamp := 0, conversation := 0, edited := false, read := false,
    parent_message := none }

/-- Direct message whose receiver is its own sender. -/
def exSelf : MessageRec :=
  { message_id := 102, sender := 1, receiver := some 1, content := "note",
    timestamp := 0, conversation := 0, edited := false, read := false,
    parent_message := none }

/-- Group message whose sender 5 is not a participant of conversation 1. -/
def exOutside : MessageRec :=
  { message_id := 103, sender := 5, receiver := none, content := "hello all",
    timestamp := 0, conversation := 1, edited := false, read := false,
    parent_message := none }

/-- Store holding the persisted direct message. -/
def exMsgStore : Store := createMessage exStore exDirect

/-- The persisted direct-message row (timestamp drawn at creation). -/
def exRow : MessageRec := { exDirect with timestamp := 5 }

/-- Store for the get_original_content witnesses: message 100 has a clear
edited flag although a history row referencing it exists; message 200 has
the edited flag set but no history rows. -/
def exC10Store : Store :=
  { users := [1],
    conversations := [{ conversation_id := 0, participants := [1], updated_at := 0 }],
    messages :=
      [{ message_id := 100, sender := 1, receiver := none, content := "current",
         timestamp := 0, conversation := 0, edited := false, read := false,
         parent_message := none },
       { message_id := 200, sender := 1, receiver := none, content := "latest",
         timestamp := 1, conversation := 0, edited := true, read := false,
         parent_message := none }],
    notifications := [],
    history := [{ message := 100, old_content := "stray", edited_at := 3 }],
    clock := 9 }

def exC10Clear : MessageRec :=
  { message_id := 100, sender := 1, receiver := none, content := "current",
    timestamp := 0, conversation := 0, edited := false, read := false,
    parent_message := none }

def exC10Set : MessageRec :=
  { message_id := 200, sender := 1, receiver := none, content := "latest",
    timestamp := 1, conversation := 0, edited := true, read := false,
    parent_message := none }

/-- Store with an empty conversation, for the cleanup examples. -/
def exEmptyConvStore : Store :=
  { exStore with conversations := exStore.conversations ++
      [{ conversation_id := 9, participants := [], updated_at := 0 }] }

/-- Fault oracle raising at the first cleanup step. -/
def exFailFirst : Nat → Option String := fun i => if i = 0 then some "boom" else none

/-- Reachable-store example: user 1 and 2, conversation 0, then a group
message 100 from 1. -/
def exReach1 : Store := addUserOp emptyStore 1

def exReach2 : Store := addUserOp exReach1 2

def exReach3 : Store := addConversationOp exReach2 0 [1, 2]

def exReachMsg : MessageRec :=
  { message_id := 100, sender := 1, receiver := none, content := "first",
    timestamp := 0, conversation := 0, edited := false, read := false,
    parent_message := none }

def exReach4 : Store := (createMessageF (fun _ => false) exReach3 exReachMsg).1

/-- Chats-variant store: conversation 0 with participants 1 and 2, and a
message 10 from 1 with body hi. -/
def exChatStore : ChatStore :=
  { conversations := [{ conversation_id := 0, participants := [1, 2] }],
    messages := [{ message_id := 10, sender := 1, receiver := none,
                   conversation := 0, message_body := "hi", sent_at := 0,
                   edited := false, read := false, parent_message := none }],
    notifications := [], history := [], clock := 1 }

def exChatEdit (b : String) (e : Bool) : ChatMessage :=
  { message_id := 10, sender := 1, receiver := none, conversation := 0,
    message_body := b, sent_at := 0, edited := e, read := false,
    parent_message := none }

/-- The chats store after editing message 10 twice (hi to hello to hey). -/
def exChatTwice : ChatStore :=
  ChatsVariant.updateMessage
    (ChatsVariant.updateMessage exChatStore (exChatEdit "hello" false))
    (exChatEdit "hey" true)

/-- Reply-chain example of the spec scenario: root 0, reply 1, reply 2 to
reply 1, with strictly increasing sent timestamps. -/
def exReplyMsg (i : Nat) (p : Option Nat) (t : Nat) : ChatMessage :=
  { message_id := i, sender := 1, receiver := none, conversation := 0,
    message_body := "m", sent_at := t, edited := false, read := false,
    parent_message := p }

def exChain : List ChatMessage :=
  [exReplyMsg 0 none 0, exReplyMsg 1 (some 0) 1, exReplyMsg 2 (some 1) 2]

def exChainRoot : ChatMessage := exReplyMsg 0 none 0

end Examples

namespace MessagingCore

lemma find?_map_replace (l : List MessageRec) (i1 m0 : MessageRec)
    (h : l.find? (fun m => m.message_id == i1.message_id) = some m0) :
    (l.map (fun m => if m.message_id == i1.message_id then i1 else m)).find?
      (fun m => m.message_id == i1.message_id) = some i1 := by
  induction l with
  | nil => simp at h
  | cons x xs ih =>
    by_cases hx : x.message_id = i1.message_id
    · simp [hx]
    · have h' : xs.find? (fun m => m.message_id == i1.message_id) = some m0 := by
        rwa [List.find?_cons_of_neg _ (by simp [hx])] at h
      simpa [hx] using ih h'

lemma bulk_create_shape (l : List NotificationRec) (s : Store) :
    ∃ ns, bulk_create_ignore_conflicts l s = { s with notifications := ns } := by
  induction l generalizing s with
  | nil => exact ⟨s.notifications, rfl⟩
  | cons n rest ih =>
    show ∃ ns, bulk_create_ignore_conflicts rest _ = _
    by_cases hc : notifConflict s n
    · simpa [hc] using ih s
    · simp only [hc, if_false]
      obtain ⟨ns, hns⟩ := ih (pushNotif s n)
      exact ⟨ns, hns⟩

lemma bulk_history (l : List NotificationRec) (s : Store) :
    (bulk_create_ignore_conflicts l s).history = s.history := by
  obtain ⟨ns, h⟩ := bulk_create_shape l s
  rw [h]

lemma bulk_messages (l : List NotificationRec) (s : Store) :
    (bulk_create_ignore_conflicts l s).messages = s.messages := by
  obtain ⟨ns, h⟩ := bulk_create_shape l s
  rw [h]

lemma bulk_clock (l : List NotificationRec) (s : Store) :
    (bulk_create_ignore_conflicts l s).clock = s.clock := by
  obtain ⟨ns, h⟩ := bulk_create_shape l s
  rw [h]

lemma log_message_edit_changed (s : Store) (inst m0 : MessageRec)
    (hf : findMessage s inst.message_id = some m0) (hne : m0.content ≠ inst.content) :
    (log_message_edit s inst).2 = { inst with edited := true } ∧
    (log_message_edit s inst).1.history = s.history ++
      [{ message := m0.message_id, old_content := m0.content, edited_at := s.clock }] ∧
    (log_message_edit s inst).1.messages = s.messages := by
  have hcond : (m0.content != inst.content) = true := bne_iff_ne.mpr hne
  refine ⟨?_, ?_, ?_⟩ <;> simp only [log_message_edit, hf, hcond, if_true]
  · rw [bulk_history]
  · rw [bulk_messages]

lemma log_message_edit_unchanged (s : Store) (inst m0 : MessageRec)
    (hf : findMessage s inst.message_id = some m0) (heq : m0.content = inst.content) :
    log_message_edit s inst = (s, inst) := by
  have hcond : (m0.content != inst.content) = false := by
    simp [heq]
  simp only [log_message_edit, hf, hcond]
  simp

end MessagingCore

open MessagingCore in
/-- C2. Edit-history recording: updating a persisted message with a body
different from the stored body appends exactly one MessageHistory row
holding the old body, and the persisted row carries the edited flag set. -/
theorem claim2_edit_history_recording (s : Store) (inst m0 : MessageRec)
    (hf : findMessage s inst.message_id = some m0)
    (hne : m0.content ≠ inst.content) :
    (MessagingCore.updateMessage s inst).history = s.history ++
      [{ message := inst.message_id, old_content := m0.content, edited_at := s.clock }] ∧
    findMessage (MessagingCore.updateMessage s inst) inst.message_id =
      some { inst with edited := true } := by
  obtain ⟨h2, hh, hm⟩ := log_message_edit_changed s inst m0 hf hne
  have hid : m0.message_id = inst.message_id := by
    simpa using List.find?_some hf
  constructor
  · show (log_message_edit s inst).1.history = _
    rw [hh, hid]
  · show ((log_message_edit s inst).1.messages.map
        (fun m => if m.message_id == (log_message_edit s inst).2.message_id
          then (log_message_edit s inst).2 else m)).find?
        (fun m => m.message_id == inst.message_id) = _
    rw [hm, h2]
    exact find?_map_replace s.messages { inst with edited := true } m0 hf

open MessagingCore in
/-- C2 witness: editing the persisted direct message hi to hello records
one history row with old body hi and sets the edited flag. -/
theorem claim2_edit_history_recording_witness :
    (MessagingCore.updateMessage exMsgStore { exRow with content := "hello" }).history =
      exMsgStore.history ++
        [{ message := 100, old_content := "hi", edited_at := exMsgStore.clock }] ∧
    findMessage (MessagingCore.updateMessage exMsgStore { exRow with content := "hello" }) 100 =
      some { exRow with content := "hello", edited := true } :=
  claim2_edit_history_recording exMsgStore { exRow with content := "hello" } exRow
    (by decide) (by decide)

open MessagingCore in
/-- C8. Frame condition: saving an existing message whose body is
unchanged (only non-body fields such as the read flag differ) creates no
MessageHistory row, changes no notifications, and leaves the edited flag
exactly as it was stored. -/
theorem claim8_non_body_mutation_frame (s : Store) (inst m0 : MessageRec)
    (hf : findMessage s inst.message_id = some m0)
    (heq : inst.content = m0.content)
    (hed : inst.edited = m0.edited) :
    (MessagingCore.updateMessage s inst).history = s.history ∧
    (MessagingCore.updateMessage s inst).notifications = s.notifications ∧
    ∃ m1, findMessage (MessagingCore.updateMessage s inst) inst.message_id = some m1 ∧
      m1.edited = m0.edited := by
  have hlog : log_message_edit s inst = (s, inst) :=
    log_message_edit_unchanged s inst m0 hf heq.symm
  refine ⟨?_, ?_, ?_⟩
  · show (log_message_edit s inst).1.history = s.history
    rw [hlog]
  · show (log_message_edit s inst).1.notifications = s.notifications
    rw [hlog]
  · refine ⟨inst, ?_, hed⟩
    show ((log_message_edit s inst).1.messages.map
        (fun m => if m.message_id == (log_message_edit s inst).2.message_id
          then (log_message_edit s inst).2 else m)).find?
        (fun m => m.message_id == inst.message_id) = some inst
    rw [hlog]
    exact find?_map_replace s.messages inst m0 hf

open MessagingCore in
/-- C8 witness: toggling the read flag of the persisted direct message
(body unchanged) leaves history, notifications and the edited flag
untouched. -/
theorem claim8_non_body_mutation_frame_witness :
    (MessagingCore.updateMessage exMsgStore { exRow with read := true }).history =
      exMsgStore.history ∧
    (MessagingCore.updateMessage exMsgStore { exRow with read := true }).notifications =
      exMsgStore.notifications ∧
    ∃ m1, findMessage (MessagingCore.updateMessage exMsgStore { exRow with read := true }) 100 =
      some m1 ∧ m1.edited = exRow.edited :=
  claim8_non_body_mutation_frame exMsgStore { exRow with read := true } exRow
    (by decide) (by decide) (by decide)

open MessagingCore in
/-- C10. Selection by the edited flag in get_original_content: a message
with a clear edited flag yields its current body even when history rows
referencing it exist, and a message with the edited flag set but an empty
history also yields its current body. -/
theorem claim10_original_content_selected_by_edited_flag (s : Store) (m : MessageRec) :
    (m.edited = false → get_original_content s m = m.content) ∧
    (m.edited = true → message_history s m.message_id = [] →
      get_original_content s m = m.content) := by
  constructor
  · intro h
    simp [get_original_content, h]
  · intro h hh
    simp [get_original_content, h, hh, oldestHistory]

open MessagingCore in
/-- C10 witness: message 100 of the example store has a clear edited flag
and a stray history row, yet yields its current body; message 200 has the
edited flag set and no history, and also yields its current body. -/
theorem claim10_original_content_selected_by_edited_flag_witness :
    get_original_content exC10Store exC10Clear = "current" ∧
    get_original_content exC10Store exC10Set = "latest" :=
  ⟨(claim10_original_content_selected_by_edited_flag exC10Store exC10Clear).1 rfl,
   (claim10_original_content_selected_by_edited_flag exC10Store exC10Set).2 rfl (by decide)⟩

open ChatsVariant in
/-- C5 counterexample: for the reply chain root 0 with reply 1, calling
get_replies_recursive with max_depth 0 does not return an empty replies
list for the root — it returns the direct reply at depth 1 with an empty
nested list, because the source truncates only when depth exceeds
max_depth. -/
theorem claim5_counterexample_max_depth_zero :
    (get_replies_recursive exChain exChainRoot 0 0).map
      (fun n => (n.message_id, n.depth, n.replies.length)) = [(1, 1, 0)] ∧
    get_replies_recursive exChain exChainRoot 0 0 ≠ [] := by
  constructor
  · rfl
  · intro h
    exact absurd (congrArg List.length h) (by decide)

open ChatsVariant in
/-- C5 amended. Threaded reply resolution: the resolver is a
deterministic function; a call with depth exceeding max_depth truncates
to the empty list; a call with depth at most max_depth returns one node
per direct reply (the messages referencing the given message as parent),
ordered by sent timestamp ascending, each carrying depth + 1 and the
depth-first recursively resolved sub-replies; with max_depth 0 the root
call still returns the root's direct replies, each with an empty nested
replies list; and the chain root-r1-r1a with max_depth 5 yields the full
two-level nested structure. -/
theorem claim5_threaded_replies_amended (msgs : List ChatMessage) (m : ChatMessage)
    (depth max_depth : Nat) :
    (max_depth < depth → get_replies_recursive msgs m depth max_depth = []) ∧
    (depth ≤ max_depth →
      get_replies_recursive msgs m depth max_depth =
        (orderedRepliesOf msgs m).map (fun reply =>
          { message_id := reply.message_id, message_body := reply.message_body,
            sender := reply.sender, sent_at := reply.sent_at, depth := depth + 1,
            replies := get_replies_recursive msgs reply (depth + 1) max_depth })) ∧
    ((orderedRepliesOf msgs m).map (fun r => r.sent_at)).Sorted (· ≤ ·) ∧
    (orderedRepliesOf msgs m).Perm
      (msgs.filter (fun r => r.parent_message == some m.message_id)) ∧
    (get_replies_recursive msgs m 0 0 =
      (orderedRepliesOf msgs m).map (fun reply =>
        { message_id := reply.message_id, message_body := reply.message_body,
          sender := reply.sender, sent_at := reply.sent_at, depth := 1,
          replies := [] })) ∧
    (get_replies_recursive exChain exChainRoot 0 5 =
      [{ message_id := 1, message_body := "m", sender := 1, sent_at := 1, depth := 1,
         replies := [{ message_id := 2, message_body := "m", sender := 1, sent_at := 2,
                       depth := 2, replies := [] }] }]) := by
  refine ⟨?_, ?_, ?_, ?_, ?_, ?_⟩
  · intro h
    have e0 : max_depth + 1 - depth = 0 := by omega
    simp only [get_replies_recursive, e0]
    rfl
  · intro h
    have e1 : max_depth + 1 - depth = (max_depth - depth) + 1 := by omega
    simp only [get_replies_recursive, e1, getRepliesAux, Nat.succ_sub_succ]
  · simp only [orderedRepliesOf]
    exact List.pairwise_map.mpr
      (List.sorted_insertionSort (fun a b : ChatMessage => a.sent_at ≤ b.sent_at)
        (msgs.filter (fun r => r.parent_message == some m.message_id)))
  · simp only [orderedRepliesOf]
    exact List.perm_insertionSort (fun a b : ChatMessage => a.sent_at ≤ b.sent_at)
      (msgs.filter (fun r => r.parent_message == some m.message_id))
  · rfl
  · rfl

open ChatsVariant in
/-- C5 witness: with max_depth 0 at depth 1 the resolver truncates to the
empty list, and at depth 0 with max_depth 5 it returns the ordered direct
replies of the chain root with their resolved sub-replies. -/
theorem claim5_threaded_replies_amended_witness :
    get_replies_recursive exChain exChainRoot 1 0 = [] ∧
    get_replies_recursive exChain exChainRoot 0 5 =
      (orderedRepliesOf exChain exChainRoot).map (fun reply =>
        { message_id := reply.message_id, message_body := reply.message_body,
          sender := reply.sender, sent_at := reply.sent_at, depth := 1,
          replies := get_replies_recursive exChain reply 1 5 }) :=
  ⟨(claim5_threaded_replies_amended exChain exChainRoot 1 0).1 (by decide),
   (claim5_threaded_replies_amended exChain exChainRoot 0 5).2.1 (by decide)⟩

namespace MessagingCore

lemma notifConflict_push (s : Store) (n m : NotificationRec) :
    notifConflict (pushNotif s n) m =
      (notifConflict s m ||
        (n.user == m.user && n.message == m.message &&
          n.notification_type == m.notification_type)) := by
  simp [notifConflict, pushNotif, List.any_append]

lemma log_message_edit_fresh (s : Store) (inst : MessageRec)
    (hfresh : findMessage s inst.message_id = none) :
    log_message_edit s inst = (s, inst) := by
  simp only [log_message_edit, hfresh]

/-- Specification of the per-recipient create loop: some prefix of the
pending list is persisted; the cut position is the first index at which
the fault oracle fires, and the loop reports success exactly when the
whole list went through. Requires that no pending row conflicts with the
store and that pending rows are pairwise tuple-distinct. -/
lemma createEach_spec (fail : Nat → Bool) (i : Nat) (pend : List NotificationRec)
    (s : Store)
    (hc : ∀ n ∈ pend, notifConflict s n = false)
    (hp : pend.Pairwise (fun a b => ¬(a.user = b.user ∧ a.message = b.message ∧
      a.notification_type = b.notification_type))) :
    ∃ k, k ≤ pend.length ∧
      (createEach fail i pend s).1.notifications = s.notifications ++ pend.take k ∧
      (∀ j, j < k → fail (i + j) = false) ∧
      (k < pend.length → fail (i + k) = true) ∧
      ((createEach fail i pend s).2 = none → k = pend.length) ∧
      (k = pend.length → (createEach fail i pend s).2 = none) := by
  induction pend generalizing i s with
  | nil =>
    refine ⟨0, ?_⟩
    simp [createEach]
  | cons n rest ih =>
    by_cases hf : fail i = true
    · refine ⟨0, ?_⟩
      simp [createEach, hf]
    · have hf' : fail i = false := by
        simpa using hf
      have hcn : notifConflict s n = false := hc n (by simp)
      have hc' : ∀ m ∈ rest, notifConflict (pushNotif s n) m = false := by
        intro m hm
        have h1 : notifConflict s m = false := hc m (by simp [hm])
        have h2 := (List.pairwise_cons.mp hp).1 m hm
        rw [notifConflict_push, h1]
        simpa [not_and] using fun hu hm2 => h2 ⟨hu, hm2⟩
      have hp' := (List.pairwise_cons.mp hp).2
      obtain ⟨k, hk, hnot, hfj, hfk, hdone, hfull⟩ := ih (i + 1) (pushNotif s n) hc' hp'
      have hred : createEach fail i (n :: rest) s =
          createEach fail (i + 1) rest (pushNotif s n) := by
        simp [createEach, hf', hcn]
      refine ⟨k + 1, ?_, ?_, ?_, ?_, ?_, ?_⟩
      · simpa using Nat.succ_le_succ hk
      · rw [hred, hnot]
        simp [pushNotif]
      · intro j hj
        match j with
        | 0 => simpa using hf'
        | jj + 1 =>
          have := hfj jj (by omega)
          rw [show i + (jj + 1) = i + 1 + jj from by omega]
          exact this
      · intro hlt
        have := hfk (by simpa using Nat.lt_of_succ_lt_succ hlt)
        rw [show i + (k + 1) = i + 1 + k from by omega]
        exact this
      · intro hnone
        rw [hred] at hnone
        have := hdone hnone
        simp [this]
      · intro hlen
        rw [hred]
        exact hfull (by simpa using hlen)

end MessagingCore

namespace MessagingCore

/-- No pending new-message row conflicts with a store that holds no
notification referencing the new message. -/
lemma pending_no_conflict (s : Store) (inst : MessageRec)
    (hOld : ∀ n ∈ s.notifications, n.message ≠ inst.message_id)
    (n : NotificationRec)
    (hn : n ∈ (get_receivers s inst).map (fun r =>
      ({ user := r, message := inst.message_id,
         notification_type := NotificationType.new_message,
         is_read := false, created_at := s.clock } : NotificationRec))) :
    notifConflict s n = false := by
  obtain ⟨r, hr, rfl⟩ := List.mem_map.mp hn
  simp only [notifConflict, List.any_eq_false]
  intro o ho
  have hne := hOld o ho
  simp [hne]

/-- Pending rows built from a duplicate-free recipient list are pairwise
tuple-distinct. -/
lemma pending_pairwise (s : Store) (inst : MessageRec)
    (hnd : (get_receivers s inst).Nodup) :
    ((get_receivers s inst).map (fun r =>
      ({ user := r, message := inst.message_id,
         notification_type := NotificationType.new_message,
         is_read := false, created_at := s.clock } : NotificationRec))).Pairwise
      (fun a b => ¬(a.user = b.user ∧ a.message = b.message ∧
        a.notification_type = b.notification_type)) := by
  refine List.Pairwise.map _ ?_ hnd
  intro a b hab habs
  exact hab habs.1

/-- Specification of the create-path fan-out handler under an arbitrary
fault oracle: a prefix of the per-recipient pending list is persisted,
cut at the first faulting create call, with success reported exactly when
every recipient's notification was written. -/
lemma create_message_notification_spec (fail : Nat → Bool) (s : Store)
    (inst : MessageRec)
    (hOld : ∀ n ∈ s.notifications, n.message ≠ inst.message_id)
    (hnd : (get_receivers s inst).Nodup) :
    ∃ k, k ≤ (get_receivers s inst).length ∧
      (create_message_notification fail s inst true).1.notifications =
        s.notifications ++ (((get_receivers s inst).map (fun r =>
          ({ user := r, message := inst.message_id,
             notification_type := NotificationType.new_message,
             is_read := false, created_at := s.clock } : NotificationRec))).take k) ∧
      (∀ j, j < k → fail j = false) ∧
      (k < (get_receivers s inst).length → fail k = true) ∧
      ((create_message_notification fail s inst true).2 = none ↔
        k = (get_receivers s inst).length) := by
  obtain ⟨k, hk, hnot, hfj, hfk, hdone, hfull⟩ :=
    createEach_spec fail 0 ((get_receivers s inst).map (fun r =>
      ({ user := r, message := inst.message_id,
         notification_type := NotificationType.new_message,
         is_read := false, created_at := s.clock } : NotificationRec))) s
      (pending_no_conflict s inst hOld) (pending_pairwise s inst hnd)
  refine ⟨k, by simpa using hk, ?_, ?_, ?_, ?_⟩
  · simpa [create_message_notification] using hnot
  · intro j hj
    simpa using hfj j hj
  · intro hlt
    simpa using hfk (by simpa using hlt)
  · constructor
    · intro hnone
      simpa using hdone (by simpa [create_message_notification] using hnone)
    · intro hlen
      simpa [create_message_notification] using hfull (by simpa using hlen)

/-- On the fault-free path the fan-out persists every pending
notification and reports success. -/
lemma create_message_notification_all (s : Store) (inst : MessageRec)
    (hOld : ∀ n ∈ s.notifications, n.message ≠ inst.message_id)
    (hnd : (get_receivers s inst).Nodup) :
    (create_message_notification (fun _ => false) s inst true).1.notifications =
      s.notifications ++ (get_receivers s inst).map (fun r =>
        ({ user := r, message := inst.message_id,
           notification_type := NotificationType.new_message,
           is_read := false, created_at := s.clock } : NotificationRec)) ∧
    (create_message_notification (fun _ => false) s inst true).2 = none := by
  obtain ⟨k, hk, hnot, hfj, hfk, hiff⟩ :=
    create_message_notification_spec (fun _ => false) s inst hOld hnd
  have hklen : k = (get_receivers s inst).length := by
    rcases Nat.lt_or_ge k (get_receivers s inst).length with h | h
    · exact absurd (hfk h) (by simp)
    · omega
  constructor
  · rw [hnot, hklen]
    congr 1
    have hlm : (((get_receivers s inst).map (fun r =>
        ({ user := r, message := inst.message_id,
           notification_type := NotificationType.new_message,
           is_read := false, created_at := s.clock } : NotificationRec)))).length =
        (get_receivers s inst).length := by
      simp
    rw [← hlm]
    exact List.take_length _
  · exact hiff.mpr hklen

end MessagingCore

namespace MessagingCore

lemma get_receivers_congr (s s' : Store) (m m' : MessageRec)
    (hc : s'.conversations = s.conversations) (h1 : m'.receiver = m.receiver)
    (h2 : m'.conversation = m.conversation) (h3 : m'.sender = m.sender) :
    get_receivers s' m' = get_receivers s m := by
  simp [get_receivers, findConversation, hc, h1, h2, h3]

/-- Creating a message with a fresh primary key, on the fault-free path,
appends exactly the fan-out notifications of its recipients. -/
lemma createMessage_notifications (s : Store) (inst : MessageRec)
    (hfresh : findMessage s inst.message_id = none)
    (hOld : ∀ n ∈ s.notifications, n.message ≠ inst.message_id)
    (hnd : (get_receivers s inst).Nodup) :
    (createMessage s inst).notifications =
      s.notifications ++ (get_receivers s inst).map (fun r =>
        ({ user := r, message := inst.message_id,
           notification_type := NotificationType.new_message,
           is_read := false, created_at := s.clock } : NotificationRec)) := by
  have hlog : log_message_edit s inst = (s, inst) :=
    log_message_edit_fresh s inst hfresh
  set row : MessageRec := { inst with timestamp := s.clock } with hrow
  set s2 : Store := { s with messages := s.messages ++ [row] } with hs2
  have hrec : get_receivers s2 row = get_receivers s inst :=
    get_receivers_congr s s2 inst row rfl rfl rfl rfl
  have hOld2 : ∀ n ∈ s2.notifications, n.message ≠ row.message_id := hOld
  have hnd2 : (get_receivers s2 row).Nodup := by
    rw [hrec]; exact hnd
  obtain ⟨hall, hnone⟩ := create_message_notification_all s2 row hOld2 hnd2
  set q := create_message_notification (fun _ => false) s2 row true with hq
  have hsplit : q = (q.1, none) := by
    rw [← hnone]
  show (createMessageF (fun _ => false) s inst).1.notifications = _
  simp only [createMessageF, hlog]
  rw [show create_message_notification (fun _ => false)
      { s with messages := s.messages ++ [{ inst with timestamp := s.clock }] }
      { inst with timestamp := s.clock } true = (q.1, none) from hsplit]
  show (update_conversation_timestamp q.1 row).notifications = _
  have : (update_conversation_timestamp q.1 row).notifications = q.1.notifications := rfl
  rw [this, hall, hrec]

/-- The notifications referencing a freshly created message are exactly
the fan-out rows of its recipients. -/
lemma newNotifications_eq (s : Store) (inst : MessageRec)
    (hfresh : findMessage s inst.message_id = none)
    (hOld : ∀ n ∈ s.notifications, n.message ≠ inst.message_id)
    (hnd : (get_receivers s inst).Nodup) :
    newNotifications s inst = (get_receivers s inst).map (fun r =>
      ({ user := r, message := inst.message_id,
         notification_type := NotificationType.new_message,
         is_read := false, created_at := s.clock } : NotificationRec)) := by
  unfold newNotifications
  rw [createMessage_notifications s inst hfresh hOld hnd, List.filter_append]
  have h1 : s.notifications.filter (fun n => n.message == inst.message_id) = [] := by
    rw [List.filter_eq_nil_iff]
    intro n hn
    simpa using hOld n hn
  have h2 : ((get_receivers s inst).map (fun r =>
      ({ user := r, message := inst.message_id,
         notification_type := NotificationType.new_message,
         is_read := false, created_at := s.clock } : NotificationRec))).filter
        (fun n => n.message == inst.message_id) =
      (get_receivers s inst).map (fun r =>
        ({ user := r, message := inst.message_id,
           notification_type := NotificationType.new_message,
           is_read := false, created_at := s.clock } : NotificationRec)) := by
    rw [List.filter_eq_self]
    intro n hn
    obtain ⟨r, hr, rfl⟩ := List.mem_map.mp hn
    simp
  rw [h1, h2, List.nil_append]

/-- A duplicate-free list with a distinguished member loses exactly one
element when that member is filtered out. -/
lemma length_filter_ne_of_nodup (l : List Nat) (x : Nat) (hnd : l.Nodup)
    (hx : x ∈ l) :
    (l.filter (fun p => p != x)).length = l.length - 1 := by
  induction l with
  | nil => cases hx
  | cons a t ih =>
    rcases List.mem_cons.mp hx with rfl | hxt
    · have hnot : x ∉ t := (List.nodup_cons.mp hnd).1
      have hft : t.filter (fun p => p != x) = t := by
        rw [List.filter_eq_self]
        intro b hb
        have hbx : b ≠ x := fun hba => hnot (hba ▸ hb)
        simpa using hbx
      simp [hft]
    · have hnd' : t.Nodup := (List.nodup_cons.mp hnd).2
      have hax : a ≠ x := by
        rintro rfl
        exact (List.nodup_cons.mp hnd).1 hxt
      have hlen : 1 ≤ t.length := List.length_pos.mpr (by rintro rfl; cases hxt)
      have := ih hnd' hxt
      simp only [List.filter_cons]
      rw [if_pos (by simpa using hax)]
      simp only [List.length_cons, this]
      omega

end MessagingCore

open MessagingCore in
/-- C1 counterexample: a message whose direct receiver is its own sender
is assigned a new_message notification addressed to the sender,
contradicting the claim that none is addressed to the sender; and a group
message whose sender is not a participant of its conversation produces N
notifications for an N-participant conversation, not N minus one. -/
theorem claim1_counterexample_sender_edge_cases :
    exSelf.receiver = some exSelf.sender ∧
    (newNotifications exStore exSelf).any (fun n => n.user == exSelf.sender) = true ∧
    exOutside.receiver = none ∧
    (findConversation exStore exOutside.conversation).map
      (fun c => c.participants.length) = some 2 ∧
    (newNotifications exStore exOutside).length = 2 ∧
    ¬((newNotifications exStore exOutside).length = 2 - 1) := by
  decide

open MessagingCore in
/-- C1 amended. Notification fan-out on message creation (for a fresh
message id with no pre-existing notifications referencing it): with a
direct receiver, exactly one new_message notification is created,
addressed to that receiver, and when the receiver differs from the sender
none is addressed to the sender; without a direct receiver, in a
conversation whose participant set contains the sender, exactly N minus
one new_message notifications are created for N participants, exactly one
per participant other than the sender, and none addressed to the sender. -/
theorem claim1_notification_fanout_amended (s : Store) (inst : MessageRec)
    (hfresh : findMessage s inst.message_id = none)
    (hOld : ∀ n ∈ s.notifications, n.message ≠ inst.message_id) :
    (∀ r, inst.receiver = some r →
      newNotifications s inst =
        [{ user := r, message := inst.message_id,
           notification_type := NotificationType.new_message,
           is_read := false, created_at := s.clock }] ∧
      (r ≠ inst.sender → ∀ n ∈ newNotifications s inst, n.user ≠ inst.sender)) ∧
    (∀ c, inst.receiver = none →
      findConversation s inst.conversation = some c →
      c.participants.Nodup → inst.sender ∈ c.participants →
      (newNotifications s inst).length = c.participants.length - 1 ∧
      (∀ p ∈ c.participants, p ≠ inst.sender →
        (newNotifications s inst).countP (fun n => n.user == p) = 1) ∧
      (∀ n ∈ newNotifications s inst, n.user ≠ inst.sender ∧
        n.notification_type = NotificationType.new_message)) := by
  constructor
  · intro r hr
    have hrec : get_receivers s inst = [r] := by
      simp [get_receivers, hr]
    have hnd : (get_receivers s inst).Nodup := by
      rw [hrec]; simp
    have hnew := newNotifications_eq s inst hfresh hOld hnd
    rw [hrec] at hnew
    constructor
    · simpa using hnew
    · intro hrs n hn
      rw [hnew] at hn
      simp only [List.map_cons, List.map_nil, List.mem_singleton] at hn
      rw [hn]
      exact hrs
  · intro c hr hc hnodup hmem
    have hrec : get_receivers s inst = c.participants.filter (fun p => p != inst.sender) := by
      simp [get_receivers, hr, hc]
    have hnd : (get_receivers s inst).Nodup := by
      rw [hrec]; exact hnodup.filter _
    have hnew := newNotifications_eq s inst hfresh hOld hnd
    refine ⟨?_, ?_, ?_⟩
    · rw [hnew, List.length_map, hrec]
      exact length_filter_ne_of_nodup c.participants inst.sender hnodup hmem
    · intro p hp hps
      rw [hnew, List.countP_map, hrec]
      show (c.participants.filter (fun q => q != inst.sender)).countP (· == p) = 1
      rw [← List.count_eq_countP]
      rw [List.count_filter (by simpa using hps)]
      exact List.count_eq_one_of_mem hnodup hp
    · intro n hn
      rw [hnew] at hn
      obtain ⟨r, hrmem, rfl⟩ := List.mem_map.mp hn
      rw [hrec] at hrmem
      have hrs := List.of_mem_filter hrmem
      exact ⟨by simpa using hrs, rfl⟩

open MessagingCore in
/-- C1 witness: creating the direct message 100 from 1 to 2 yields the
single notification for 2, and creating the group message 101 from 1 into
the three-participant conversation 0 yields two notifications. -/
theorem claim1_notification_fanout_amended_witness :
    newNotifications exStore exDirect =
      [{ user := 2, message := 100, notification_type := NotificationType.new_message,
         is_read := false, created_at := 5 }] ∧
    (newNotifications exStore exGroup).length = 2 := by
  have hd := claim1_notification_fanout_amended exStore exDirect (by decide) (by decide)
  have hg := claim1_notification_fanout_amended exStore exGroup (by decide) (by decide)
  refine ⟨(hd.1 2 rfl).1, ?_⟩
  exact (hg.2 ⟨0, [1, 2, 3], 0⟩ rfl (by decide) (by decide) (by decide)).1

open MessagingCore in
/-- C6 counterexample: the create path persists notifications by
individual create calls, so a fault on the second call leaves exactly one
of the two pending notifications persisted — neither none nor all of the
batch, contradicting the claimed single all-or-nothing bulk write. -/
theorem claim6_counterexample_not_all_or_nothing :
    (get_receivers exStore exGroup).length = 2 ∧
    ((createMessageF (fun i => i == 1) exStore exGroup).1.notifications.filter
      (fun n => n.message == exGroup.message_id)).length = 1 ∧
    (createMessageF (fun i => i == 1) exStore exGroup).2 = some "DatabaseError" ∧
    ¬(((createMessageF (fun i => i == 1) exStore exGroup).1.notifications.filter
        (fun n => n.message == exGroup.message_id)).length = 0 ∨
      ((createMessageF (fun i => i == 1) exStore exGroup).1.notifications.filter
        (fun n => n.message == exGroup.message_id)).length =
        (get_receivers exStore exGroup).length) := by
  decide

open MessagingCore in
/-- C6 amended. Create-path batch persistence: on message creation the
pending notifications are persisted by sequential per-recipient create
calls, not one bulk write; under any fault oracle some prefix of the
pending list is persisted, cut at the first faulting call, and the
handler succeeds exactly when every pending notification was written —
a failure partway leaves the earlier rows of the batch persisted. -/
theorem claim6_create_path_prefix_persistence (fail : Nat → Bool) (s : Store)
    (inst : MessageRec)
    (hOld : ∀ n ∈ s.notifications, n.message ≠ inst.message_id)
    (hnd : (get_receivers s inst).Nodup) :
    ∃ k, k ≤ (get_receivers s inst).length ∧
      (create_message_notification fail s inst true).1.notifications =
        s.notifications ++ (((get_receivers s inst).map (fun r =>
          ({ user := r, message := inst.message_id,
             notification_type := NotificationType.new_message,
             is_read := false, created_at := s.clock } : NotificationRec))).take k) ∧
      (∀ j, j < k → fail j = false) ∧
      (k < (get_receivers s inst).length → fail k = true) ∧
      ((create_message_notification fail s inst true).2 = none ↔
        k = (get_receivers s inst).length) :=
  create_message_notification_spec fail s inst hOld hnd

open MessagingCore in
/-- C6 witness: for the group message 101 with two recipients and a fault
on the second create call, a persisted prefix exists as specified. -/
theorem claim6_create_path_prefix_persistence_witness :
    ∃ k, k ≤ (get_receivers exStore exGroup).length ∧
      (create_message_notification (fun i => i == 1) exStore exGroup true).1.notifications =
        exStore.notifications ++ (((get_receivers exStore exGroup).map (fun r =>
          ({ user := r, message := exGroup.message_id,
             notification_type := NotificationType.new_message,
             is_read := false, created_at := exStore.clock } : NotificationRec))).take k) ∧
      (∀ j, j < k → (fun i => i == 1) j = false) ∧
      (k < (get_receivers exStore exGroup).length → (fun i => i == 1) k = true) ∧
      ((create_message_notification (fun i => i == 1) exStore exGroup true).2 = none ↔
        k = (get_receivers exStore exGroup).length) :=
  claim6_create_path_prefix_persistence (fun i => i == 1) exStore exGroup
    (by decide) (by decide)

namespace MessagingCore

lemma bulk_conversations (l : List NotificationRec) (s : Store) :
    (bulk_create_ignore_conflicts l s).conversations = s.conversations := by
  obtain ⟨ns, h⟩ := bulk_create_shape l s
  rw [h]

lemma bulk_users (l : List NotificationRec) (s : Store) :
    (bulk_create_ignore_conflicts l s).users = s.users := by
  obtain ⟨ns, h⟩ := bulk_create_shape l s
  rw [h]

lemma log_message_edit_fields (s : Store) (inst : MessageRec) :
    (log_message_edit s inst).1.messages = s.messages ∧
    (log_message_edit s inst).2.message_id = inst.message_id := by
  unfold log_message_edit
  split
  · exact ⟨rfl, rfl⟩
  · split
    · exact ⟨by rw [bulk_messages], rfl⟩
    · exact ⟨rfl, rfl⟩

lemma find?_map_replace_key (l : List MessageRec) (key : Nat) (i1 m0 : MessageRec)
    (hid : i1.message_id = key)
    (h : l.find? (fun m => m.message_id == key) = some m0) :
    (l.map (fun m => if m.message_id == key then i1 else m)).find?
      (fun m => m.message_id == key) = some i1 := by
  induction l with
  | nil => simp at h
  | cons x xs ih =>
    by_cases hx : x.message_id = key
    · simp [hx, hid]
    · have h' : xs.find? (fun m => m.message_id == key) = some m0 := by
        rwa [List.find?_cons_of_neg _ (by simp [hx])] at h
      simpa [hx] using ih h'

/-- An edit step preserves the invariant that a message with a non-empty
history has its edited flag set. -/
lemma applyEdit_good (s : Store) (mid : Nat) (b : String)
    (hg : ∃ m, findMessage s mid = some m ∧
      (message_history s mid ≠ [] → m.edited = true)) :
    ∃ m, findMessage (applyEdit s mid b) mid = some m ∧
      (message_history (applyEdit s mid b) mid ≠ [] → m.edited = true) := by
  obtain ⟨m, hm, hgood⟩ := hg
  have hid : m.message_id = mid := by
    simpa using List.find?_some hm
  have happ : applyEdit s mid b = updateMessage s { m with content := b } := by
    unfold applyEdit
    rw [hm]
  set inst : MessageRec := { m with content := b } with hinst
  have hfind : findMessage s inst.message_id = some m := by
    show findMessage s m.message_id = some m
    rw [hid]
    exact hm
  by_cases hne : m.content = b
  · -- unchanged body: the pre_save handler is a no-op
    have hlog : log_message_edit s inst = (s, inst) :=
      log_message_edit_unchanged s inst m hfind hne
    refine ⟨inst, ?_, ?_⟩
    · rw [happ]
      show ((log_message_edit s inst).1.messages.map
          (fun x => if x.message_id == (log_message_edit s inst).2.message_id
            then (log_message_edit s inst).2 else x)).find?
          (fun x => x.message_id == mid) = some inst
      rw [hlog]
      show (s.messages.map (fun x => if x.message_id == inst.message_id then inst else x)).find?
          (fun x => x.message_id == mid) = some inst
      simp only [hid]
      exact find?_map_replace_key s.messages mid inst m hid hm
    · intro hh
      have hhist : message_history (applyEdit s mid b) mid = message_history s mid := by
        rw [happ]
        show ((log_message_edit s inst).1.history).filter (fun h => h.message == mid) = _
        rw [hlog]
        rfl
      rw [hhist] at hh
      exact hgood hh
  · -- changed body: one history row is recorded and the flag is set
    obtain ⟨h2, hh, hmsg⟩ := log_message_edit_changed s inst m hfind hne
    refine ⟨{ inst with edited := true }, ?_, ?_⟩
    · rw [happ]
      show ((log_message_edit s inst).1.messages.map
          (fun x => if x.message_id == (log_message_edit s inst).2.message_id
            then (log_message_edit s inst).2 else x)).find?
          (fun x => x.message_id == mid) = some { inst with edited := true }
      rw [hmsg, h2]
      have hm2 : s.messages.find? (fun x => x.message_id == m.message_id) = some m := by
        rw [hid]; exact hm
      simp only [← hid]
      exact find?_map_replace_key s.messages m.message_id { inst with edited := true } m rfl hm2
    · intro _
      rfl

lemma applyEdits_good (mid : Nat) (bs : List String) :
    ∀ s : Store, (∃ m, findMessage s mid = some m ∧
      (message_history s mid ≠ [] → m.edited = true)) →
    ∃ m, findMessage (applyEdits s mid bs) mid = some m ∧
      (message_history (applyEdits s mid bs) mid ≠ [] → m.edited = true) := by
  induction bs with
  | nil => exact fun s hg => hg
  | cons b bs ih =>
    intro s hg
    exact ih (applyEdit s mid b) (applyEdit_good s mid b hg)

end MessagingCore

open MessagingCore in
/-- C3. Round-trip original-content recovery: starting from any persisted
message satisfying the history-edited coupling (in particular any message
never edited so far), after any sequence of body edits,
get_original_content returns the current body when the message's history
is empty, and the old body of the oldest history row when it is not. -/
theorem claim3_round_trip_original_content (s : Store) (mid : Nat) (m0 : MessageRec)
    (hm : findMessage s mid = some m0)
    (hseed : message_history s mid ≠ [] → m0.edited = true)
    (bs : List String) :
    ∃ m1, findMessage (applyEdits s mid bs) mid = some m1 ∧
      (message_history (applyEdits s mid bs) mid = [] →
        get_original_content (applyEdits s mid bs) m1 = m1.content) ∧
      (∀ h, oldestHistory (message_history (applyEdits s mid bs) mid) = some h →
        get_original_content (applyEdits s mid bs) m1 = h.old_content) := by
  obtain ⟨m1, hf, hgood⟩ := applyEdits_good mid bs s ⟨m0, hm, hseed⟩
  have hid : m1.message_id = mid := by
    simpa using List.find?_some hf
  refine ⟨m1, hf, ?_, ?_⟩
  · intro hempty
    cases he : m1.edited with
    | false => simp [get_original_content, he]
    | true => simp [get_original_content, he, hid, hempty, oldestHistory]
  · intro h hold
    have hne : message_history (applyEdits s mid bs) mid ≠ [] := by
      intro hcon
      rw [hcon] at hold
      simp [oldestHistory] at hold
    have hed : m1.edited = true := hgood hne
    simp [get_original_content, hed, hid, hold]

open MessagingCore in
/-- C3 witness: the persisted direct message, edited twice, recovers its
oldest recorded body through get_original_content as specified. -/
theorem claim3_round_trip_original_content_witness :
    ∃ m1, findMessage (applyEdits exMsgStore 100 ["hello", "hey"]) 100 = some m1 ∧
      (message_history (applyEdits exMsgStore 100 ["hello", "hey"]) 100 = [] →
        get_original_content (applyEdits exMsgStore 100 ["hello", "hey"]) m1 = m1.content) ∧
      (∀ h, oldestHistory (message_history (applyEdits exMsgStore 100 ["hello", "hey"]) 100) = some h →
        get_original_content (applyEdits exMsgStore 100 ["hello", "hey"]) m1 = h.old_content) :=
  claim3_round_trip_original_content exMsgStore 100 exRow (by decide)
    (fun h => absurd rfl h) ["hello", "hey"]

namespace MessagingCore

lemma deleteMessagesBy_of_none (s : Store) (p : MessageRec → Bool)
    (h : s.messages.filter p = []) : deleteMessagesBy s p = s := by
  have h1 := List.filter_eq_nil_iff.mp h
  unfold deleteMessagesBy
  simp only [h, List.map_nil]
  have hm : s.messages.filter (fun m => !(p m)) = s.messages := by
    rw [List.filter_eq_self]
    intro m hm
    simpa using h1 m hm
  have hh : s.history.filter (fun x => !(([] : List Nat).contains x.message)) = s.history := by
    rw [List.filter_eq_self]
    intro x _
    simp
  have hn : s.notifications.filter (fun x => !(([] : List Nat).contains x.message)) = s.notifications := by
    rw [List.filter_eq_self]
    intro x _
    simp
  rw [hm, hh, hn]

lemma deleteConversationsBy_of_none (s : Store) (p : ConversationRec → Bool)
    (h : s.conversations.filter p = []) : deleteConversationsBy s p = s := by
  unfold deleteConversationsBy
  simp only [h, List.map_nil]
  have hc : s.conversations.filter (fun c => !(p c)) = s.conversations := by
    rw [List.filter_eq_self]
    intro c hcmem
    simpa using List.filter_eq_nil_iff.mp h c hcmem
  rw [hc]
  exact deleteMessagesBy_of_none _ _ (by
    rw [List.filter_eq_nil_iff]
    intro m _
    simp)

/-- The fault-free cleanup coordinator computes this chain of deletions;
holds by computation. -/
lemma cleanup_user_data_fst (s : Store) (u : Nat) :
    (cleanup_user_data s u).1 =
      deleteConversationsBy
        (deleteConversationsBy
          { deleteMessagesBy s (fun m => m.sender == u) with
            history := (deleteMessagesBy s (fun m => m.sender == u)).history.filter
              (fun h => !(historyJoinPred (deleteMessagesBy s (fun m => m.sender == u)) u h)) }
          (fun c => c.participants.isEmpty))
        (fun c => c.participants.isEmpty) := rfl

end MessagingCore

namespace MessagingCore

/-- On a store with no messages of the deleted user and no empty
conversations, the cleanup coordinator is an identity on the store and
reports all-zero statistics with no errors. -/
lemma cleanup_of_clean (s : Store) (u : Nat)
    (h1 : s.messages.filter (fun m => m.sender == u) = [])
    (h2 : s.conversations.filter (fun c => c.participants.isEmpty) = []) :
    cleanup_user_data s u =
      (s, { user_id := u, message_histories_deleted := 0,
            empty_conversations_deleted := 0,
            additional_references_cleaned := 0, errors := [] }) := by
  have e1 : deleteMessagesBy s (fun m => m.sender == u) = s :=
    deleteMessagesBy_of_none s _ h1
  have hjf : ∀ h, historyJoinPred s u h = false := by
    intro h
    unfold historyJoinPred
    rw [h1]
    rfl
  have e2 : s.history.filter (historyJoinPred s u) = [] := by
    rw [List.filter_eq_nil_iff]
    intro x _
    simp [hjf x]
  have e3 : s.history.filter (fun h => !(historyJoinPred s u h)) = s.history := by
    rw [List.filter_eq_self]
    intro x _
    simp [hjf x]
  have e4 : deleteConversationsBy s (fun c => c.participants.isEmpty) = s :=
    deleteConversationsBy_of_none s _ h2
  have e5 : ({ s with history := s.history } : Store) = s := rfl
  unfold cleanup_user_data cleanup_user_data_f cleanupBody cleanup_orphaned_references
    verify_cleanup_completion
  simp only [e1, e2, e3, e5, e4, h2, List.length_nil]
  simp

end MessagingCore

namespace MessagingCore

lemma deleteConversationsBy_conversations (s : Store) (p : ConversationRec → Bool) :
    (deleteConversationsBy s p).conversations = s.conversations.filter (fun c => !(p c)) := rfl

lemma mem_deleteConversationsBy_messages (t : Store) (p : ConversationRec → Bool)
    (m : MessageRec) (hm : m ∈ (deleteConversationsBy t p).messages) : m ∈ t.messages :=
  List.mem_of_mem_filter hm

lemma filter_deleteConversationsBy (t : Store) (p : ConversationRec → Bool) :
    ((deleteConversationsBy t p).conversations).filter p = [] := by
  rw [deleteConversationsBy_conversations, List.filter_filter]
  rw [List.filter_eq_nil_iff]
  intro c _
  simp

/-- After the coordinator has run, no message of the deleted user and no
empty conversation remains. -/
lemma cleanup_clean_after (s : Store) (u : Nat) :
    ((cleanup_user_data s u).1).messages.filter (fun m => m.sender == u) = [] ∧
    ((cleanup_user_data s u).1).conversations.filter (fun c => c.participants.isEmpty) = [] := by
  rw [cleanup_user_data_fst]
  constructor
  · rw [List.filter_eq_nil_iff]
    intro m hm
    have hmA := mem_deleteConversationsBy_messages _ _ _ hm
    have hmB := mem_deleteConversationsBy_messages _ _ _ hmA
    have hmC : m ∈ s.messages.filter (fun x => !(x.sender == u)) := hmB
    have := (List.mem_filter.mp hmC).2
    simpa using this
  · exact filter_deleteConversationsBy _ _

end MessagingCore

open MessagingCore in
/-- C4. Cleanup idempotence: running the cascade cleanup coordinator a
second time on the same deleted user leaves the store exactly as the
first run left it, finds zero empty conversations, and records zero
errors. -/
theorem claim4_cleanup_idempotent (s : Store) (u : Nat) :
    (cleanup_user_data (cleanup_user_data s u).1 u).1 = (cleanup_user_data s u).1 ∧
    (cleanup_user_data (cleanup_user_data s u).1 u).2.empty_conversations_deleted = 0 ∧
    (cleanup_user_data (cleanup_user_data s u).1 u).2.errors = [] := by
  obtain ⟨hA, hB⟩ := cleanup_clean_after s u
  rw [cleanup_of_clean _ u hA hB]
  exact ⟨rfl, rfl, rfl⟩

namespace MessagingCore

lemma cleanup_orphaned_references_users (fail : Nat → Option String) (s : Store)
    (stats : DeletionStats) :
    (cleanup_orphaned_references fail s stats).1.users = s.users := by
  unfold cleanup_orphaned_references
  cases fail 3 <;> rfl

lemma cleanupBody_users (fail : Nat → Option String) (s : Store) (u : Nat) :
    (cleanupBody fail s u).1.users = s.users := by
  unfold cleanupBody
  cases fail 0 with
  | some e => rfl
  | none =>
    cases fail 1 with
    | some e => rfl
    | none =>
      cases fail 2 with
      | some e => rfl
      | none =>
        exact cleanup_orphaned_references_users fail _ _

lemma cleanup_user_data_f_fst (fail : Nat → Option String) (s : Store) (u : Nat) :
    (cleanup_user_data_f fail s u).1 = (cleanupBody fail s u).1 := by
  unfold cleanup_user_data_f
  rcases h : cleanupBody fail s u with ⟨s1, stats, err⟩
  cases err <;> rfl

end MessagingCore

open MessagingCore in
/-- C7. Cleanup error containment: whatever exception escapes the body of
the cleanup coordinator is caught by its outer handler and recorded in
the errors list of the audit entry (the coordinator returns normally, so
nothing propagates to the caller), and the users table — in particular
the already-committed deletion of the user — is never modified by the
cleanup under any fault oracle. -/
theorem claim7_cleanup_error_containment (fail : Nat → Option String) (s : Store)
    (u : Nat) (e : String)
    (h : (cleanupBody fail s u).2.2 = some e) :
    ("Error during user data cleanup: " ++ e) ∈ (cleanup_user_data_f fail s u).2.errors ∧
    (cleanup_user_data_f fail s u).1.users = s.users := by
  constructor
  · unfold cleanup_user_data_f
    rcases hq : cleanupBody fail s u with ⟨s1, stats, err⟩
    have herr : err = some e := by
      rw [hq] at h
      exact h
    rw [herr]
    simp
  · rw [cleanup_user_data_f_fst]
    exact cleanupBody_users fail s u

open MessagingCore in
/-- C7 witness: a fault raised at the first cleanup step on the empty
store is caught and recorded, and the users table is untouched. -/
theorem claim7_cleanup_error_containment_witness :
    ("Error during user data cleanup: boom") ∈
      (cleanup_user_data_f exFailFirst emptyStore 7).2.errors ∧
    (cleanup_user_data_f exFailFirst emptyStore 7).1.users = emptyStore.users :=
  claim7_cleanup_error_containment exFailFirst emptyStore 7 "boom" (by decide)

namespace MessagingCore

lemma countTuple_push (s : Store) (n : NotificationRec) (u m : Nat)
    (t : NotificationType) :
    countTuple (pushNotif s n) u m t = countTuple s u m t +
      (if (n.user == u && n.message == m && n.notification_type == t) then 1 else 0) := by
  simp [countTuple, pushNotif, List.countP_append, List.countP_cons]

lemma inv_push (s : Store) (n : NotificationRec)
    (hc : notifConflict s n = false)
    (hinv : ∀ u m t, countTuple s u m t ≤ 1) :
    ∀ u m t, countTuple (pushNotif s n) u m t ≤ 1 := by
  intro u m t
  rw [countTuple_push]
  by_cases hp : (n.user == u && n.message == m && n.notification_type == t) = true
  · obtain ⟨h1, h2, h3⟩ : n.user = u ∧ n.message = m ∧ n.notification_type = t := by
      simpa [and_assoc] using hp
    have h0 : countTuple s u m t = 0 := by
      rw [countTuple, List.countP_eq_zero]
      intro o ho
      have := (List.any_eq_false.mp hc) o ho
      subst h1
      subst h2
      subst h3
      simpa using this
    simp [h0, hp]
  · have hp' : (n.user == u && n.message == m && n.notification_type == t) = false := by
      simpa using hp
    simpa [hp'] using hinv u m t

lemma inv_createEach (fail : Nat → Bool) (i : Nat) (l : List NotificationRec)
    (s : Store) (hinv : ∀ u m t, countTuple s u m t ≤ 1) :
    ∀ u m t, countTuple (createEach fail i l s).1 u m t ≤ 1 := by
  induction l generalizing i s with
  | nil => exact hinv
  | cons n rest ih =>
    show ∀ u m t, countTuple (if fail i then (s, some "DatabaseError")
      else if notifConflict s n then (s, some "IntegrityError")
      else createEach fail (i + 1) rest (pushNotif s n)).1 u m t ≤ 1
    by_cases hf : fail i = true
    · simpa [hf] using hinv
    · have hf' : fail i = false := by simpa using hf
      by_cases hcf : notifConflict s n = true
      · simpa [hf', hcf] using hinv
      · have hcf' : notifConflict s n = false := by simpa using hcf
        simpa [hf', hcf'] using ih (i + 1) (pushNotif s n) (inv_push s n hcf' hinv)

lemma inv_bulk_create (l : List NotificationRec) (s : Store)
    (hinv : ∀ u m t, countTuple s u m t ≤ 1) :
    ∀ u m t, countTuple (bulk_create_ignore_conflicts l s) u m t ≤ 1 := by
  induction l generalizing s with
  | nil => exact hinv
  | cons n rest ih =>
    show ∀ u m t, countTuple (bulk_create_ignore_conflicts rest
      (if notifConflict s n then s else pushNotif s n)) u m t ≤ 1
    by_cases hcf : notifConflict s n = true
    · simpa [hcf] using ih s hinv
    · have hcf' : notifConflict s n = false := by simpa using hcf
      simpa [hcf'] using ih (pushNotif s n) (inv_push s n hcf' hinv)

lemma inv_log_message_edit (s : Store) (inst : MessageRec)
    (hinv : ∀ u m t, countTuple s u m t ≤ 1) :
    ∀ u m t, countTuple (log_message_edit s inst).1 u m t ≤ 1 := by
  unfold log_message_edit
  split
  · exact hinv
  · split
    · exact inv_bulk_create _ _ hinv
    · exact hinv

lemma inv_create_message_notification (fail : Nat → Bool) (s : Store)
    (inst : MessageRec) (created : Bool)
    (hinv : ∀ u m t, countTuple s u m t ≤ 1) :
    ∀ u m t, countTuple (create_message_notification fail s inst created).1 u m t ≤ 1 := by
  unfold create_message_notification
  split
  · exact inv_createEach fail 0 _ s hinv
  · exact hinv

lemma inv_updateMessage (s : Store) (inst : MessageRec)
    (hinv : ∀ u m t, countTuple s u m t ≤ 1) :
    ∀ u m t, countTuple (MessagingCore.updateMessage s inst) u m t ≤ 1 :=
  inv_log_message_edit s inst hinv

lemma inv_createMessageF (fail : Nat → Bool) (s : Store) (inst : MessageRec)
    (hinv : ∀ u m t, countTuple s u m t ≤ 1) :
    ∀ u m t, countTuple (createMessageF fail s inst).1 u m t ≤ 1 := by
  intro u m t
  unfold createMessageF
  have hlog := inv_log_message_edit s inst hinv
  dsimp only
  split
  case _ s3 e heq =>
    have h2 := inv_create_message_notification fail
      { (log_message_edit s inst).1 with
        messages := (log_message_edit s inst).1.messages ++
          [{ (log_message_edit s inst).2 with timestamp := (log_message_edit s inst).1.clock }] }
      { (log_message_edit s inst).2 with timestamp := (log_message_edit s inst).1.clock }
      true hlog u m t
    rw [heq] at h2
    exact h2
  case _ s3 heq =>
    have h2 := inv_create_message_notification fail
      { (log_message_edit s inst).1 with
        messages := (log_message_edit s inst).1.messages ++
          [{ (log_message_edit s inst).2 with timestamp := (log_message_edit s inst).1.clock }] }
      { (log_message_edit s inst).2 with timestamp := (log_message_edit s inst).1.clock }
      true hlog u m t
    rw [heq] at h2
    exact h2

lemma inv_of_notifications_sublist (s' s : Store)
    (h : s'.notifications.Sublist s.notifications)
    (hinv : ∀ u m t, countTuple s u m t ≤ 1) :
    ∀ u m t, countTuple s' u m t ≤ 1 :=
  fun u m t => le_trans (h.countP_le _) (hinv u m t)

lemma deleteMessagesBy_notifications_sublist (s : Store) (p : MessageRec → Bool) :
    (deleteMessagesBy s p).notifications.Sublist s.notifications :=
  List.filter_sublist _

lemma deleteConversationsBy_notifications_sublist (s : Store) (p : ConversationRec → Bool) :
    (deleteConversationsBy s p).notifications.Sublist s.notifications :=
  List.filter_sublist _

lemma cleanup_notifications_sublist (s : Store) (u : Nat) :
    ((cleanup_user_data s u).1).notifications.Sublist s.notifications := by
  rw [cleanup_user_data_fst]
  refine (deleteConversationsBy_notifications_sublist _ _).trans
    ((deleteConversationsBy_notifications_sublist _ _).trans ?_)
  exact deleteMessagesBy_notifications_sublist s _

lemma inv_deleteUser (s : Store) (u : Nat)
    (hinv : ∀ u1 m t, countTuple s u1 m t ≤ 1) :
    ∀ u1 m t, countTuple (MessagingCore.deleteUser s u) u1 m t ≤ 1 := by
  apply inv_of_notifications_sublist _ s _ hinv
  unfold MessagingCore.deleteUser
  refine (cleanup_notifications_sublist _ _).trans ?_
  refine (List.filter_sublist _).trans ?_
  exact deleteMessagesBy_notifications_sublist s _

end MessagingCore

open MessagingCore ChatsVariant in
/-- C9 counterexample (chats model variant): the chats Notification model
has no uniqueness constraint and the chats edit fan-out uses a plain
bulk_create, so editing message 10 twice gives participant 2 two
message_edit notifications for the same (user, message, type) tuple —
the core's edit fan-out does not preserve the claimed invariant in this
variant. -/
theorem claim9_counterexample_chats_duplicate :
    countTupleChats exChatStore 2 10 NotificationType.message_edit = 0 ∧
    countTupleChats exChatTwice 2 10 NotificationType.message_edit = 2 ∧
    ¬(countTupleChats exChatTwice 2 10 NotificationType.message_edit ≤ 1) := by
  decide

open MessagingCore in
/-- C9 amended. Notification uniqueness in the messaging model variant:
in every store state reachable through the core operations (user and
conversation creation, message creation with its fan-out under any fault
oracle, message update with its edit fan-out, user deletion with its
cleanup), at most one Notification row exists per
(user, message, notification_type) tuple — the unique_together constraint
together with the conflict-tolerant writes preserves the invariant
through every operation. -/
theorem claim9_notification_uniqueness_amended (s : Store) (hr : Reachable s) :
    ∀ u m t, countTuple s u m t ≤ 1 := by
  induction hr with
  | init => intro u m t; simp [countTuple, emptyStore]
  | addUser s u _ _ ih => exact ih
  | addConversation s cid ps _ _ _ ih => exact ih
  | createMessage s inst fail _ _ ih => exact inv_createMessageF fail s inst ih
  | updateMessage s inst _ ih => exact inv_updateMessage s inst ih
  | deleteUser s u _ ih => exact inv_deleteUser s u ih

open MessagingCore in
/-- C9 witness: the store reached by adding users 1 and 2, creating
conversation 0, and creating group message 100 satisfies the uniqueness
bound at the tuple of user 2 and message 100. -/
theorem claim9_notification_uniqueness_amended_witness :
    countTuple exReach4 2 100 NotificationType.new_message ≤ 1 :=
  claim9_notification_uniqueness_amended exReach4
    (Reachable.createMessage exReach3 exReachMsg (fun _ => false)
      (Reachable.addConversation exReach2 0 [1, 2]
        (Reachable.addUser exReach1 2
          (Reachable.addUser emptyStore 1 Reachable.init (by decide))
          (by decide))
        (by decide) (by decide))
      (by decide))
    2 100 NotificationType.new_message
